import Mathlib

/-!
Verification of the swing-o-matic swing-projection engine.

The definitions below are a shallow embedding of the repository code:
- calculations.py : apply_generic_swing, calculate_winner,
  construct_national_df, construct_df_states
- app.py          : the national popular-vote projection inside update_results

Floating-point arithmetic is modelled with exact rationals, dicts with
association lists (lookup with a default of 0, as dict.get(g, 0.0)), and a
DataFrame row with a record of the baseline shares plus an association list
of the remaining columns.
-/

/-- Names excluded from group-column discovery by apply_generic_swing
(calculations.py line 54). -/
def base_share_cols : List String :=
  ["BaselineObama", "BaselineMcCain", "BaselineThird"]

/-- Column-suffix test: the code treats every column whose name ends in
"Share" (and is not a baseline column) as a demographic group column
(calculations.py lines 53-54). -/
def isGroupCol (c : String) : Bool :=
  (c.data.drop (c.data.length - 5) == "Share".data) && !(base_share_cols.contains c)

/-- dict.get(g, 0.0) on a Python dict modelled as an association list. -/
def lookupD (m : List (String × ℚ)) (g : String) : ℚ :=
  (m.lookup g).getD 0

/-- Cap a shifted group share at 1.0 (calculations.py lines 65-66). -/
def capShare (x : ℚ) : ℚ :=
  if x > 1 then 1 else x

/-- Step 1 of apply_generic_swing before renormalization: every group column
becomes capShare (share * (1 + turnout shift)); other columns pass through
(calculations.py lines 60-68). -/
def turnout_pass (ts : List (String × ℚ)) (cols : List (String × ℚ)) :
    List (String × ℚ) :=
  cols.map (fun p =>
    if isGroupCol p.1 then (p.1, capShare (p.2 * (1 + lookupD ts p.1))) else p)

/-- Sum of the values of the group columns of a row (row_sum in the code). -/
def group_sum (cols : List (String × ℚ)) : ℚ :=
  ((cols.filter (fun p => isGroupCol p.1)).map Prod.snd).sum

/-- Renormalization of step 1: divide each group column by the row sum when
that sum is positive, otherwise leave the shifted values as they are
(calculations.py lines 70-76). -/
def normalize_pass (cols : List (String × ℚ)) : List (String × ℚ) :=
  if group_sum cols > 0 then
    cols.map (fun p => if isGroupCol p.1 then (p.1, p.2 / group_sum cols) else p)
  else cols

/-- Step 3: weighted margin shift, each group shift weighted by the
post-turnout share of that group (calculations.py lines 83-90). -/
def margin_shift_sum (ms : List (String × ℚ)) (cols : List (String × ℚ)) : ℚ :=
  ((cols.filter (fun p => isGroupCol p.1)).map
    (fun p => lookupD ms p.1 * p.2)).sum

/-- Step 6: accumulated third-party change; groups absent from the shift
dict contribute nothing (calculations.py lines 120-133). -/
def third_delta_sum (tps : List (String × ℚ)) (bT : ℚ)
    (cols : List (String × ℚ)) : ℚ :=
  ((cols.filter (fun p => isGroupCol p.1)).map
    (fun p =>
      match tps.lookup p.1 with
      | some v => (v - bT) * p.2
      | none => 0)).sum

/-- Series.clip(lower = -mx, upper = mx) (calculations.py line 97). -/
def clip_margin (mx x : ℚ) : ℚ :=
  if x < -mx then -mx else if x > mx then mx else x

/-- The pair of sequential clamps of calculations.py lines 173-176:
t_base is forced into [0, 1]. -/
def clamp01 (x : ℚ) : ℚ :=
  if x < 0 then 0 else if x > 1 then 1 else x

/-- The pair of sequential clamps of calculations.py lines 183-187:
the margin fraction is forced into [-n, n]. -/
def clamp_sym (n x : ℚ) : ℚ :=
  if (if x > n then n else x) < -n then -n else if x > n then n else x

/-- Step 7 of apply_generic_swing: final (obama, mccain, third) split from
the two-party sum, the clamped margin fraction and the third-party
candidate value, with the degenerate fallback (0.5, 0.5, 0.0) when the
total is ≤ 0 (calculations.py lines 149-195). -/
def final_three (twoPartySum marginFrac ft0 : ℚ) : ℚ × ℚ × ℚ :=
  if (twoPartySum + marginFrac) / 2 + (twoPartySum - marginFrac) / 2 + ft0 ≤ 0 then
    (1 / 2, 1 / 2, 0)
  else
    ((1 - clamp01 ft0 + clamp_sym (1 - clamp01 ft0) marginFrac) / 2,
     (1 - clamp01 ft0 - clamp_sym (1 - clamp01 ft0) marginFrac) / 2,
     clamp01 ft0)

/-- One input row of the df_states table: the three baseline result columns
plus the remaining columns (group shares, EV, ...). -/
structure SwingRow where
  baselineObama : ℚ
  baselineMcCain : ℚ
  baselineThird : ℚ
  cols : List (String × ℚ)

/-- One output row of apply_generic_swing, holding every column the
function writes into the returned frame. -/
structure SwingOut where
  cols : List (String × ℚ)
  baselineMargin : ℚ
  twoPartySum : ℚ
  marginShift : ℚ
  newMargin : ℚ
  marginFrac : ℚ
  obama2p : ℚ
  mccain2p : ℚ
  finalObama : ℚ
  finalMcCain : ℚ
  finalThird : ℚ
  finalMargin : ℚ
  winner : String

/-- The group-share columns of a row after steps 1 and 2 (turnout shift,
cap, renormalization). -/
def swing_cols1 (ts : List (String × ℚ)) (row : SwingRow) : List (String × ℚ) :=
  normalize_pass (turnout_pass ts row.cols)

/-- NewMargin of step 4: baseline margin plus the weighted shift, clipped
at plus or minus max_margin_points. -/
def swing_new_margin (ms ts : List (String × ℚ)) (mx : ℚ) (row : SwingRow) : ℚ :=
  clip_margin mx (row.baselineObama - row.baselineMcCain +
    margin_shift_sum ms (swing_cols1 ts row))

/-- FinalThird after step 6, before the clamps of step 7. -/
def swing_third0 (ts tps : List (String × ℚ)) (row : SwingRow) : ℚ :=
  if tps.isEmpty then row.baselineThird
  else row.baselineThird + third_delta_sum tps row.baselineThird (swing_cols1 ts row)

/-- apply_generic_swing on one row (the function is row-wise throughout).
A Python third_party_shifts of None or of an empty dict are both falsy, so
both are modelled by the empty list. -/
def apply_generic_swing_row (ms ts tps : List (String × ℚ)) (mx : ℚ)
    (row : SwingRow) : SwingOut :=
  { cols := swing_cols1 ts row
    baselineMargin := row.baselineObama - row.baselineMcCain
    twoPartySum := row.baselineObama + row.baselineMcCain
    marginShift := margin_shift_sum ms (swing_cols1 ts row)
    newMargin := swing_new_margin ms ts mx row
    marginFrac := swing_new_margin ms ts mx row
    obama2p := (row.baselineObama + row.baselineMcCain + swing_new_margin ms ts mx row) / 2
    mccain2p := (row.baselineObama + row.baselineMcCain - swing_new_margin ms ts mx row) / 2
    finalObama := (final_three (row.baselineObama + row.baselineMcCain)
      (swing_new_margin ms ts mx row) (swing_third0 ts tps row)).1
    finalMcCain := (final_three (row.baselineObama + row.baselineMcCain)
      (swing_new_margin ms ts mx row) (swing_third0 ts tps row)).2.1
    finalThird := (final_three (row.baselineObama + row.baselineMcCain)
      (swing_new_margin ms ts mx row) (swing_third0 ts tps row)).2.2
    finalMargin := (final_three (row.baselineObama + row.baselineMcCain)
      (swing_new_margin ms ts mx row) (swing_third0 ts tps row)).1 -
        (final_three (row.baselineObama + row.baselineMcCain)
          (swing_new_margin ms ts mx row) (swing_third0 ts tps row)).2.1
    winner := if (final_three (row.baselineObama + row.baselineMcCain)
        (swing_new_margin ms ts mx row) (swing_third0 ts tps row)).1 -
          (final_three (row.baselineObama + row.baselineMcCain)
            (swing_new_margin ms ts mx row) (swing_third0 ts tps row)).2.1 > 0
      then "Obama" else "McCain" }

/-- apply_generic_swing over a whole table: one independent pass per row. -/
def apply_generic_swing (ms ts tps : List (String × ℚ)) (mx : ℚ)
    (rows : List SwingRow) : List SwingOut :=
  rows.map (apply_generic_swing_row ms ts tps mx)

/-- calculate_winner from calculations.py lines 421-436: Python
max(o, m, t), then third party is tested first, then Obama, else McCain. -/
def calculate_winner (o m t : ℚ) : String :=
  let maximum := max (max o m) t
  if maximum = t then "ThirdParty"
  else if maximum = o then "Obama"
  else "McCain"

/-- Claim-side description of step 1 before renormalization: every group
share becomes min 1 (share * (1 + shift)), with the shift defaulting to 0
for groups absent from the turnout dict. -/
def turnout_shifted_claim (ts : List (String × ℚ)) (cols : List (String × ℚ)) :
    List (String × ℚ) :=
  cols.map (fun p =>
    if isGroupCol p.1 then (p.1, min 1 (p.2 * (1 + lookupD ts p.1))) else p)

/-- Claim-side re-derivation of baseline shares through the two-party-split
formula of step 7: clamp the third-party share to [0,1], clamp the baseline
margin to what remains, split the remainder evenly around the margin. -/
def rederive_shares (bO bM bT : ℚ) : ℚ × ℚ × ℚ :=
  let t := max 0 (min 1 bT)
  let rem := 1 - t
  let m := max (-rem) (min rem (bO - bM))
  ((rem + m) / 2, (rem - m) / 2, t)

/-- The six demographic groups driven by the sliders; iteration order of the
original_margins dict in app.py load_exit_poll_data. -/
def national_groups : List String :=
  ["WhiteNonCollegeShare", "WhiteCollegeShare", "BlackShare", "HispanicShare",
   "AsianShare", "OtherShare"]

/-- Sum of the national demographic shares over the slider groups
(total_national_demographic_share in app.py line 214). -/
def pop_vote_total_share (natShares : String → ℚ) : ℚ :=
  (national_groups.map natShares).sum

/-- adjusted_margin of app.py line 223: scale the shift by 1/100 and clamp
to [-1, 1]; dict access uses a default of 0. -/
def pop_vote_adj (ms : List (String × ℚ)) (g : String) : ℚ :=
  max (-1) (min 1 (lookupD ms g / 100))

/-- The Obama accumulation loop of app.py lines 222-227, starting from the
baseline national share. -/
def pop_vote_obama_raw (natShares : String → ℚ) (ms : List (String × ℚ))
    (baseO : ℚ) : ℚ :=
  national_groups.foldl
    (fun a g => a + pop_vote_adj ms g * (natShares g / pop_vote_total_share natShares))
    baseO

/-- The McCain accumulation loop of app.py lines 222-227. -/
def pop_vote_mccain_raw (natShares : String → ℚ) (ms : List (String × ℚ))
    (baseM : ℚ) : ℚ :=
  national_groups.foldl
    (fun a g => a - pop_vote_adj ms g * (natShares g / pop_vote_total_share natShares))
    baseM

/-- Sum of the three popular-vote shares after the independent clamps to
[0, 1] (total_votes in app.py line 235). -/
def pop_vote_clamped_total (natShares : String → ℚ) (ms : List (String × ℚ))
    (baseO baseM baseT : ℚ) : ℚ :=
  max 0 (min 1 (pop_vote_obama_raw natShares ms baseO)) +
    max 0 (min 1 (pop_vote_mccain_raw natShares ms baseM)) +
    max 0 (min 1 baseT)

/-- The national popular-vote projection of update_results
(app.py lines 208-238): accumulate weighted margin adjustments onto the
baseline shares, clamp each share to [0, 1], renormalize by the total. -/
def update_results_pop_vote (natShares : String → ℚ) (ms : List (String × ℚ))
    (baseO baseM baseT : ℚ) : ℚ × ℚ × ℚ :=
  let o2 := max 0 (min 1 (pop_vote_obama_raw natShares ms baseO))
  let m2 := max 0 (min 1 (pop_vote_mccain_raw natShares ms baseM))
  let t2 := max 0 (min 1 baseT)
  let tv := o2 + m2 + t2
  (o2 / tv, m2 / tv, t2 / tv)

/-- Claim-side description of the national projection: one weighted shift
(each group shift weighted by that group share normalized by the sum over
the slider groups), added to the Obama baseline and subtracted from the
McCain baseline, each share clamped to [0,1] independently, then the three
shares renormalized by their total. -/
def pop_vote_claim_formula (natShares : String → ℚ) (ms : List (String × ℚ))
    (baseO baseM baseT : ℚ) : ℚ × ℚ × ℚ :=
  let shift := (national_groups.map
    (fun g => pop_vote_adj ms g *
      (natShares g / pop_vote_total_share natShares))).sum
  let o2 := max 0 (min 1 (baseO + shift))
  let m2 := max 0 (min 1 (baseM - shift))
  let t2 := max 0 (min 1 baseT)
  let tv := o2 + m2 + t2
  (o2 / tv, m2 / tv, t2 / tv)

/-- Rename table of construct_national_df (calculations.py lines 212-221). -/
def national_rename_list : List (String × String) :=
  [("Asian/Pacific Islander", "AsianShare"),
   ("Black/African American", "BlackShare"),
   ("Hispanic/Latino", "HispanicShare"),
   ("Other", "OtherShare"),
   ("College_White", "WhiteCollegeShare"),
   ("Noncollege_White", "WhiteNonCollegeShare"),
   ("Male", "MaleShare"),
   ("Female", "FemaleShare")]

/-- required_cols of construct_national_df (calculations.py lines 225-228). -/
def national_required_cols : List String :=
  ["WhiteCollegeShare", "WhiteNonCollegeShare", "BlackShare", "HispanicShare",
   "AsianShare", "OtherShare", "MaleShare", "FemaleShare"]

/-- DataFrame.rename(columns = m): a column keeps its name unless the map
has an entry for it. -/
def rename_cols (m : List (String × String)) (cols : List String) : List String :=
  cols.map (fun c => (m.lookup c).getD c)

/-- Required canonical columns still missing after the rename in
construct_national_df (calculations.py line 229). -/
def missing_national_cols (cols : List String) : List String :=
  national_required_cols.filter
    (fun c => !((rename_cols national_rename_list cols).contains c))

/-- construct_national_df reduced to its control flow: an exit poll is a
list of subgroup records carrying the (Obama, McCain, Other) values; the
function raises on missing required columns, then on a missing exit poll,
then on a missing Total record (calculations.py lines 207-250). -/
def construct_national_df (cols : List String)
    (exitPoll : Option (List (String × (ℚ × ℚ × ℚ)))) :
    Except String (ℚ × ℚ × ℚ) :=
  if missing_national_cols cols ≠ [] then
    .error ("Missing columns in national demographics: " ++
      String.intercalate ", " (missing_national_cols cols))
  else
    match exitPoll with
    | some ep =>
      match ep.lookup "Total" with
      | some b => .ok b
      | none => .error "Exit poll Total row is missing."
    | none => .error "Exit poll DataFrame is required."

/-- Rename table applied to the state demographics frame
(calculations.py lines 320 and 324-356). -/
def state_demo_rename_list : List (String × String) :=
  [("STATE", "State"),
   ("Black_Percentage", "BlackShare"),
   ("Hispanic_Percentage", "HispanicShare"),
   ("Asian_Percentage", "AsianShare"),
   ("Other_Percentage", "OtherShare"),
   ("White_Non_College_Percentage", "WhiteNonCollegeShare"),
   ("White_College_Percentage", "WhiteCollegeShare"),
   ("Male_Percentage", "MaleShare"),
   ("Female_Percentage", "FemaleShare"),
   ("18-24_Percentage", "Age18_24Share"),
   ("25-29_Percentage", "Age25_29Share"),
   ("30-39_Percentage", "Age30_39Share"),
   ("40-49_Percentage", "Age40_49Share"),
   ("50-64_Percentage", "Age50_64Share"),
   ("65+_Percentage", "Age65PlusShare"),
   ("Not_a_veteran_Percentage", "NotVetShare"),
   ("Veteran_Percentage", "VetShare"),
   ("Under_15000_Percentage", "Under15kShare"),
   ("15000-30000_Percentage", "k15_30Share"),
   ("30000-50000_Percentage", "k30_50Share"),
   ("50000-75000_Percentage", "k50_75Share"),
   ("75000-100000_Percentage", "k75_100Share"),
   ("100000-150000_Percentage", "k100_150Share"),
   ("150000-200000_Percentage", "k150_200Share"),
   ("Over_200000_Percentage", "Over200kShare")]

/-- Rename table applied to the state results frame
(calculations.py lines 361-367). -/
def state_results_rename_list : List (String × String) :=
  [("STATE", "State"),
   ("OBAMA", "BaselineObama"),
   ("MCCAIN", "BaselineMcCain"),
   ("THIRDPARTY", "BaselineThird")]

/-- keep_cols of construct_df_states (calculations.py lines 373-389). -/
def state_keep_cols : List String :=
  ["State",
   "WhiteCollegeShare", "WhiteNonCollegeShare",
   "BlackShare", "HispanicShare", "AsianShare", "OtherShare",
   "MaleShare", "FemaleShare",
   "Age18_24Share", "Age25_29Share", "Age30_39Share", "Age40_49Share",
   "Age50_64Share", "Age65PlusShare",
   "Under15kShare", "k15_30Share", "k30_50Share", "k50_75Share",
   "k75_100Share", "k100_150Share", "k150_200Share", "Over200kShare",
   "VetShare", "NotVetShare",
   "BaselineObama", "BaselineMcCain", "BaselineThird",
   "EV", "MARGIN", "TURNOUT"]

/-- construct_df_states reduced to its column handling: rename both frames,
merge on the State key (calculations.py line 370) — pandas raises a
KeyError when State is absent from either frame after renaming, the one
error path of this builder; the inner join otherwise only restricts rows,
so the merged column set is the union — then keep only those of keep_cols
that exist (calculations.py line 392), with no validation of the kept
columns. -/
def construct_df_states (demoCols resultCols : List String) :
    Except String (List String) :=
  if (rename_cols state_demo_rename_list demoCols).contains "State" &&
      (rename_cols state_results_rename_list resultCols).contains "State" then
    .ok (state_keep_cols.filter (fun c =>
      (rename_cols state_demo_rename_list demoCols ++
        rename_cols state_results_rename_list resultCols).contains c))
  else .error "KeyError: State"

/-! ### Helper lemmas -/

theorem capShare_eq_min (x : ℚ) : capShare x = min 1 x := by
  unfold capShare
  rcases le_or_lt x 1 with h | h
  · rw [if_neg (not_lt.mpr h), min_eq_right h]
  · rw [if_pos h, min_eq_left h.le]

theorem turnout_pass_eq_claim (ts : List (String × ℚ)) (cols : List (String × ℚ)) :
    turnout_pass ts cols = turnout_shifted_claim ts cols := by
  unfold turnout_pass turnout_shifted_claim
  refine List.map_congr_left fun p _ => ?_
  rw [capShare_eq_min]

theorem filter_map_group (f : String × ℚ → String × ℚ)
    (hf : ∀ p, (f p).1 = p.1) (cols : List (String × ℚ)) :
    (cols.map (fun p => if isGroupCol p.1 then f p else p)).filter
        (fun p => isGroupCol p.1) =
      (cols.filter (fun p => isGroupCol p.1)).map f := by
  induction cols with
  | nil => simp
  | cons p rest ih =>
    by_cases h : isGroupCol p.1
    · simp only [List.map_cons, List.filter_cons, h, if_true, hf (p := p), ih]
    · simp only [List.map_cons, List.filter_cons, h, if_false, ih]
      simp [h]

theorem sum_snd_comp_div (l : List (String × ℚ)) (s : ℚ) :
    (l.map (Prod.snd ∘ fun p => (p.1, p.2 / s))).sum =
      ((l.map Prod.snd).sum) / s := by
  induction l with
  | nil => simp
  | cons p rest ih => simp [ih, add_div]

theorem group_sum_map_div (cols : List (String × ℚ)) (s : ℚ) :
    group_sum (cols.map (fun p => if isGroupCol p.1 then (p.1, p.2 / s) else p)) =
      group_sum cols / s := by
  unfold group_sum
  rw [filter_map_group (fun p => (p.1, p.2 / s)) (fun p => rfl), List.map_map,
    sum_snd_comp_div]

theorem group_sum_normalize (cols : List (String × ℚ))
    (h : 0 < group_sum cols) : group_sum (normalize_pass cols) = 1 := by
  unfold normalize_pass
  rw [if_pos h, group_sum_map_div]
  exact div_self (ne_of_gt h)

theorem clamp01_mem (x : ℚ) : 0 ≤ clamp01 x ∧ clamp01 x ≤ 1 := by
  unfold clamp01
  split_ifs <;> constructor <;> linarith

theorem clamp_sym_mem (n x : ℚ) (hn : 0 ≤ n) :
    -n ≤ clamp_sym n x ∧ clamp_sym n x ≤ n := by
  unfold clamp_sym
  split_ifs <;> constructor <;> linarith

theorem final_three_sum (a b c : ℚ) :
    (final_three a b c).1 + (final_three a b c).2.1 + (final_three a b c).2.2 = 1 := by
  unfold final_three
  split_ifs <;> simp <;> ring

theorem final_three_nonneg (a b c : ℚ) :
    0 ≤ (final_three a b c).1 ∧ 0 ≤ (final_three a b c).2.1 ∧
      0 ≤ (final_three a b c).2.2 := by
  unfold final_three
  split_ifs with h
  · norm_num
  · have h1 := clamp01_mem c
    have h2 := clamp_sym_mem (1 - clamp01 c) b (by linarith [h1.2])
    refine ⟨?_, ?_, ?_⟩ <;> simp only [] <;> [linarith [h2.1]; linarith [h2.2]; exact h1.1]

theorem final_three_margin_bound (a b c : ℚ) :
    |(final_three a b c).1 - (final_three a b c).2.1| ≤
      1 - (final_three a b c).2.2 := by
  unfold final_three
  split_ifs with h
  · norm_num
  · have h1 := clamp01_mem c
    have h2 := clamp_sym_mem (1 - clamp01 c) b (by linarith [h1.2])
    rw [abs_le]
    constructor <;> simp only [] <;> [linarith [h2.1]; linarith [h2.2]]

theorem clip_margin_id (mx x : ℚ) (h1 : -mx ≤ x) (h2 : x ≤ mx) :
    clip_margin mx x = x := by
  unfold clip_margin
  rw [if_neg (not_lt.mpr h1), if_neg (not_lt.mpr h2)]

theorem foldl_add_eq (f : String → ℚ) (l : List String) (x : ℚ) :
    List.foldl (fun a g => a + f g) x l = x + (l.map f).sum := by
  induction l generalizing x with
  | nil => simp
  | cons g rest ih => simp [ih, add_assoc]

theorem foldl_sub_eq (f : String → ℚ) (l : List String) (x : ℚ) :
    List.foldl (fun a g => a - f g) x l = x - (l.map f).sum := by
  induction l generalizing x with
  | nil => simp
  | cons g rest ih => rw [List.foldl_cons, ih, List.map_cons, List.sum_cons]; ring

theorem map_id_of_mem {α : Type} (f : α → α) (l : List α)
    (h : ∀ p ∈ l, f p = p) : l.map f = l := by
  induction l with
  | nil => rfl
  | cons p rest ih =>
    rw [List.map_cons, h p (List.mem_cons_self p rest),
      ih fun q hq => h q (List.mem_cons_of_mem p hq)]

theorem lookupD_mem_bound (ts : List (String × ℚ)) (g : String) (lo : ℚ)
    (hlo : lo ≤ 0) (h : ∀ p ∈ ts, lo ≤ p.2) : lo ≤ lookupD ts g := by
  unfold lookupD
  induction ts with
  | nil => simpa using hlo
  | cons p rest ih =>
    rw [List.lookup_cons]
    by_cases hg : g == p.1
    · simpa [hg] using h p (List.mem_cons_self p rest)
    · simp only [hg]
      simpa using ih fun q hq => h q (List.mem_cons_of_mem p hq)

theorem lookupD_eq_zero (ms : List (String × ℚ)) (g : String)
    (h : ms.lookup g = none) : lookupD ms g = 0 := by
  unfold lookupD
  rw [h]
  rfl

theorem lookupD_zero_of_all (ms : List (String × ℚ)) (g : String)
    (h : ∀ p ∈ ms, p.2 = 0) : lookupD ms g = 0 := by
  unfold lookupD
  induction ms with
  | nil => rfl
  | cons p rest ih =>
    rw [List.lookup_cons]
    by_cases hg : g == p.1
    · simpa [hg] using h p (List.mem_cons_self p rest)
    · simp only [hg]
      exact ih fun q hq => h q (List.mem_cons_of_mem p hq)

theorem group_sum_append (a b : List (String × ℚ)) :
    group_sum (a ++ b) = group_sum a + group_sum b := by
  unfold group_sum
  rw [List.filter_append, List.map_append, List.sum_append]

theorem margin_shift_sum_append (ms : List (String × ℚ)) (a b : List (String × ℚ)) :
    margin_shift_sum ms (a ++ b) = margin_shift_sum ms a + margin_shift_sum ms b := by
  unfold margin_shift_sum
  rw [List.filter_append, List.map_append, List.sum_append]

theorem third_delta_sum_append (tps : List (String × ℚ)) (bT : ℚ)
    (a b : List (String × ℚ)) :
    third_delta_sum tps bT (a ++ b) =
      third_delta_sum tps bT a + third_delta_sum tps bT b := by
  unfold third_delta_sum
  rw [List.filter_append, List.map_append, List.sum_append]

theorem margin_shift_sum_zero (ms : List (String × ℚ)) (b : List (String × ℚ))
    (h : ∀ p ∈ b, ms.lookup p.1 = none) : margin_shift_sum ms b = 0 := by
  unfold margin_shift_sum
  refine List.sum_eq_zero fun x hx => ?_
  obtain ⟨p, hp, rfl⟩ := List.mem_map.mp hx
  rw [lookupD_eq_zero ms p.1 (h p (List.mem_of_mem_filter hp)), zero_mul]

theorem third_delta_sum_zero (tps : List (String × ℚ)) (bT : ℚ)
    (b : List (String × ℚ)) (h : ∀ p ∈ b, tps.lookup p.1 = none) :
    third_delta_sum tps bT b = 0 := by
  unfold third_delta_sum
  refine List.sum_eq_zero fun x hx => ?_
  obtain ⟨p, hp, rfl⟩ := List.mem_map.mp hx
  rw [h p (List.mem_of_mem_filter hp)]

/-! ### Claim theorems -/

/-- C1: for every input row and every combination of margin shifts, turnout
shifts and third-party shifts, the three final shares returned by
apply_generic_swing satisfy FinalObama + FinalMcCain + FinalThird = 1.0 —
exactly, hence within 1e-9 — including rows that take the degenerate
fallback (0.5, 0.5, 0.0). -/
theorem c1_final_shares_sum_to_one (ms ts tps : List (String × ℚ)) (mx : ℚ)
    (row : SwingRow) :
    (apply_generic_swing_row ms ts tps mx row).finalObama +
        (apply_generic_swing_row ms ts tps mx row).finalMcCain +
        (apply_generic_swing_row ms ts tps mx row).finalThird = 1 ∧
      |(apply_generic_swing_row ms ts tps mx row).finalObama +
          (apply_generic_swing_row ms ts tps mx row).finalMcCain +
          (apply_generic_swing_row ms ts tps mx row).finalThird - 1| ≤
        1 / 1000000000 := by
  have h := final_three_sum (row.baselineObama + row.baselineMcCain)
    (swing_new_margin ms ts mx row) (swing_third0 ts tps row)
  constructor
  · exact h
  · rw [show (apply_generic_swing_row ms ts tps mx row).finalObama +
        (apply_generic_swing_row ms ts tps mx row).finalMcCain +
        (apply_generic_swing_row ms ts tps mx row).finalThird = 1 from h]
    norm_num

/-- C8: for every row and every shift specification, however large the
requested margin shift, the returned shares satisfy
|FinalObama - FinalMcCain| ≤ 1 - FinalThird. -/
theorem c8_margin_bounded_by_third (ms ts tps : List (String × ℚ)) (mx : ℚ)
    (row : SwingRow) :
    |(apply_generic_swing_row ms ts tps mx row).finalObama -
        (apply_generic_swing_row ms ts tps mx row).finalMcCain| ≤
      1 - (apply_generic_swing_row ms ts tps mx row).finalThird :=
  final_three_margin_bound (row.baselineObama + row.baselineMcCain)
    (swing_new_margin ms ts mx row) (swing_third0 ts tps row)

/-- C3 counterexample: the claim says a row with
FinalThird == FinalObama > FinalMcCain resolves to Obama, but
calculate_winner tests third party first, so the 0.4 / 0.2 / 0.4 row
resolves to ThirdParty. -/
theorem c3_tie_counterexample :
    calculate_winner (2 / 5) (1 / 5) (2 / 5) = "ThirdParty" ∧
      calculate_winner (2 / 5) (1 / 5) (2 / 5) ≠ "Obama" := by
  have h : calculate_winner (2 / 5) (1 / 5) (2 / 5) = "ThirdParty" := by
    unfold calculate_winner
    rw [max_eq_left (by norm_num : (1 : ℚ) / 5 ≤ 2 / 5),
      max_self, if_pos rfl]
  exact ⟨h, by rw [h]; decide⟩

/-- C3 (amended): the winner computed by calculate_winner is a total
function of the three final shares with the fixed tie-break order —
third party is tested first, then Obama, else McCain; a row with all three
shares equal resolves to ThirdParty, and a row with
FinalThird == FinalObama > FinalMcCain also resolves to ThirdParty
(third party wins that tie, not Obama). -/
theorem c3_winner_amended (o m t : ℚ) :
    (o ≤ t → m ≤ t → calculate_winner o m t = "ThirdParty") ∧
      (t < o → m ≤ o → calculate_winner o m t = "Obama") ∧
      (t < m → o < m → calculate_winner o m t = "McCain") ∧
      (o = m → m = t → calculate_winner o m t = "ThirdParty") ∧
      (t = o → m < o → calculate_winner o m t = "ThirdParty") := by
  have hthird : ∀ h1 : o ≤ t, ∀ h2 : m ≤ t, calculate_winner o m t = "ThirdParty" := by
    intro h1 h2
    unfold calculate_winner
    rw [max_eq_right (max_le h1 h2), if_pos rfl]
  refine ⟨hthird, ?_, ?_, ?_, ?_⟩
  · intro h1 h2
    unfold calculate_winner
    rw [max_eq_left h2, max_eq_left h1.le, if_neg (ne_of_gt h1), if_pos rfl]
  · intro h1 h2
    unfold calculate_winner
    rw [max_eq_right h2.le, max_eq_left h1.le, if_neg (ne_of_gt h1),
      if_neg (ne_of_gt h2)]
  · intro h1 h2
    exact hthird (h1.trans h2).le h2.le
  · intro h1 h2
    exact hthird h1.ge (h2.le.trans h1.ge)

/-- Witness for c3_winner_amended at concrete shares. -/
theorem c3_winner_amended_witness :
    calculate_winner (1 / 3) (1 / 3) (1 / 3) = "ThirdParty" ∧
      calculate_winner (13 / 25) (23 / 50) (1 / 50) = "Obama" := by
  constructor
  · exact (c3_winner_amended (1 / 3) (1 / 3) (1 / 3)).2.2.2.1 rfl rfl
  · exact (c3_winner_amended (13 / 25) (23 / 50) (1 / 50)).2.1 (by norm_num) (by norm_num)

theorem isGroupCol_wnc : isGroupCol "WhiteNonCollegeShare" = true := by decide

theorem isGroupCol_wc : isGroupCol "WhiteCollegeShare" = true := by decide

theorem isGroupCol_black : isGroupCol "BlackShare" = true := by decide

theorem isGroupCol_hispanic : isGroupCol "HispanicShare" = true := by decide

theorem isGroupCol_asian : isGroupCol "AsianShare" = true := by decide

theorem isGroupCol_other : isGroupCol "OtherShare" = true := by decide

theorem isGroupCol_male : isGroupCol "MaleShare" = true := by decide

theorem isGroupCol_female : isGroupCol "FemaleShare" = true := by decide

theorem isGroupCol_ev : isGroupCol "EV" = false := by decide

/-- C4: in the turnout step, per row independently, every group share
becomes min 1 (baseShare * (1 + turnoutShift)) with the shift defaulting
to 0 for absent groups (that is the list turnout_shifted_claim); if the sum
of the new shares over the group columns is positive, each group share is
divided by that sum and the post-shift group shares sum to 1.0 exactly
(hence within 1e-9); if that sum is 0, the shifted shares are kept as they
are and no error is raised. -/
theorem c4_turnout_normalization (ms ts tps : List (String × ℚ)) (mx : ℚ)
    (row : SwingRow) :
    (0 < group_sum (turnout_shifted_claim ts row.cols) →
        (apply_generic_swing_row ms ts tps mx row).cols =
            (turnout_shifted_claim ts row.cols).map
              (fun p => if isGroupCol p.1 then
                (p.1, p.2 / group_sum (turnout_shifted_claim ts row.cols)) else p) ∧
          group_sum (apply_generic_swing_row ms ts tps mx row).cols = 1) ∧
      (group_sum (turnout_shifted_claim ts row.cols) = 0 →
        (apply_generic_swing_row ms ts tps mx row).cols =
          turnout_shifted_claim ts row.cols) := by
  have hc : (apply_generic_swing_row ms ts tps mx row).cols =
      normalize_pass (turnout_shifted_claim ts row.cols) := by
    show swing_cols1 ts row = _
    unfold swing_cols1
    rw [turnout_pass_eq_claim]
  constructor
  · intro h
    refine ⟨?_, ?_⟩
    · rw [hc]
      unfold normalize_pass
      rw [if_pos h]
    · rw [hc]
      exact group_sum_normalize _ h
  · intro h
    rw [hc]
    unfold normalize_pass
    rw [if_neg (by rw [h]; exact lt_irrefl 0)]

/-- Witness for c4_turnout_normalization on a concrete two-group row with
no turnout shifts. -/
theorem c4_turnout_normalization_witness :
    0 < group_sum (turnout_shifted_claim []
        [("BlackShare", (1 : ℚ) / 2), ("WhiteNonCollegeShare", 1 / 2)]) ∧
      group_sum (apply_generic_swing_row [] [] [] 100
        ⟨1 / 2, 12 / 25, 1 / 50,
          [("BlackShare", 1 / 2), ("WhiteNonCollegeShare", 1 / 2)]⟩).cols = 1 := by
  have h : 0 < group_sum (turnout_shifted_claim []
      [("BlackShare", (1 : ℚ) / 2), ("WhiteNonCollegeShare", 1 / 2)]) := by
    norm_num [turnout_shifted_claim, group_sum, lookupD, isGroupCol_black,
      isGroupCol_wnc, List.filter_cons, min_def]
  exact ⟨h, ((c4_turnout_normalization [] [] [] 100
    ⟨1 / 2, 12 / 25, 1 / 50,
      [("BlackShare", 1 / 2), ("WhiteNonCollegeShare", 1 / 2)]⟩).1 h).2⟩

/-- C5 counterexample: a row whose baseline and group shares all lie in
[0, 1], hit with the turnout shift -2 on BlackShare, gets the negative
value -2 written into its BlackShare column, so the engine does produce
negative shares for some numeric shift specifications. -/
theorem c5_negative_share_counterexample :
    ((apply_generic_swing_row [] [("BlackShare", -2)] [] 100
        ⟨1 / 2, 12 / 25, 1 / 50,
          [("BlackShare", 2 / 5), ("WhiteCollegeShare", 3 / 10),
           ("OtherShare", 3 / 10)]⟩).cols.lookup "BlackShare") = some (-2) ∧
      (-2 : ℚ) < 0 := by
  constructor
  · show (swing_cols1 [("BlackShare", -2)] _).lookup "BlackShare" = some (-2)
    norm_num [swing_cols1, normalize_pass, turnout_pass, group_sum, capShare,
      lookupD, List.lookup, isGroupCol_black, isGroupCol_wc, isGroupCol_other,
      List.filter_cons]
    all_goals try simp
    all_goals try norm_num [List.lookup]
  · norm_num

theorem capShare_nonneg (x : ℚ) (h : 0 ≤ x) : 0 ≤ capShare x := by
  unfold capShare
  split_ifs <;> linarith

theorem turnout_pass_group_nonneg (ts cols : List (String × ℚ))
    (hts : ∀ p ∈ ts, (-1 : ℚ) ≤ p.2)
    (hcols : ∀ p ∈ cols, isGroupCol p.1 = true → 0 ≤ p.2) :
    ∀ p ∈ turnout_pass ts cols, isGroupCol p.1 = true → 0 ≤ p.2 := by
  intro p hp
  obtain ⟨q, hq, rfl⟩ := List.mem_map.mp hp
  by_cases h : isGroupCol q.1
  · simp only [h, if_true]
    intro _
    refine capShare_nonneg _ (mul_nonneg (hcols q hq h) ?_)
    have := lookupD_mem_bound ts q.1 (-1) (by norm_num) hts
    linarith
  · simp only [h, if_false]
    exact hcols q hq

theorem normalize_pass_group_nonneg (cols : List (String × ℚ))
    (h : ∀ p ∈ cols, isGroupCol p.1 = true → 0 ≤ p.2) :
    ∀ p ∈ normalize_pass cols, isGroupCol p.1 = true → 0 ≤ p.2 := by
  unfold normalize_pass
  split_ifs with hs
  · intro p hp
    obtain ⟨q, hq, rfl⟩ := List.mem_map.mp hp
    by_cases hg : isGroupCol q.1
    · simp only [hg, if_true]
      intro _
      exact div_nonneg (h q hq hg) hs.le
    · simp only [hg, if_false]
      exact h q hq
  · exact h

theorem lookup_mem_pair (l : List (String × ℚ)) (g : String) (v : ℚ)
    (h : l.lookup g = some v) : (g, v) ∈ l := by
  induction l with
  | nil => simp at h
  | cons p rest ih =>
    rw [List.lookup_cons] at h
    by_cases hg : g == p.1
    · simp only [hg] at h
      have h1 : p.2 = v := by simpa using h
      have h2 : g = p.1 := by simpa using hg
      exact List.mem_cons.mpr (Or.inl (by rw [h2, ← h1]))
    · simp only [hg] at h
      exact List.mem_cons_of_mem p (ih h)

/-- C5 (amended): the final-share columns the engine writes are never
negative for any shift specification whatsoever; the group-share columns
(the columns isGroupCol selects), given values in [0, 1] as the claim
assumes, are never negative provided every turnout shift is at least -1.
A turnout shift below -1 can produce a negative group share (see the
counterexample), and NaN cannot arise in exact arithmetic. The non-group
columns (EV, MARGIN, TURNOUT, State) are unconstrained and pass through
untouched. -/
theorem c5_nonneg_amended (ms ts tps : List (String × ℚ)) (mx : ℚ)
    (row : SwingRow)
    (hcols : ∀ p ∈ row.cols, isGroupCol p.1 = true → 0 ≤ p.2 ∧ p.2 ≤ 1) :
    (0 ≤ (apply_generic_swing_row ms ts tps mx row).finalObama ∧
        0 ≤ (apply_generic_swing_row ms ts tps mx row).finalMcCain ∧
        0 ≤ (apply_generic_swing_row ms ts tps mx row).finalThird) ∧
      ((∀ p ∈ ts, (-1 : ℚ) ≤ p.2) →
        ∀ p ∈ (apply_generic_swing_row ms ts tps mx row).cols,
          isGroupCol p.1 = true → 0 ≤ p.2) := by
  refine ⟨final_three_nonneg (row.baselineObama + row.baselineMcCain)
    (swing_new_margin ms ts mx row) (swing_third0 ts tps row), ?_⟩
  intro hts
  show ∀ p ∈ swing_cols1 ts row, isGroupCol p.1 = true → 0 ≤ p.2
  unfold swing_cols1
  exact normalize_pass_group_nonneg _
    (turnout_pass_group_nonneg ts row.cols hts fun p hp hg => (hcols p hp hg).1)

/-- Witness for c5_nonneg_amended: the final Obama share is nonnegative
even under the turnout shift -2 (below -1), and with the milder shift
-1/2 the BlackShare group column stays nonnegative. -/
theorem c5_nonneg_amended_witness :
    0 ≤ (apply_generic_swing_row [] [("BlackShare", -2)] [] 100
        ⟨1 / 2, 12 / 25, 1 / 50,
          [("BlackShare", 1 / 2), ("WhiteNonCollegeShare", 1 / 2)]⟩).finalObama ∧
      0 ≤ ((apply_generic_swing_row [] [("BlackShare", -1 / 2)] [] 100
        ⟨1 / 2, 12 / 25, 1 / 50,
          [("BlackShare", 1 / 2), ("WhiteNonCollegeShare", 1 / 2)]⟩).cols.lookup
            "BlackShare").getD 0 := by
  have hc : ∀ p ∈ [("BlackShare", (1 : ℚ) / 2), ("WhiteNonCollegeShare", 1 / 2)],
      isGroupCol p.1 = true → 0 ≤ p.2 ∧ p.2 ≤ 1 := by
    intro p hp _
    simp only [List.mem_cons, List.mem_singleton] at hp
    rcases hp with h | h | h <;> first | (rw [h]; norm_num) | simp at h
  constructor
  · exact (c5_nonneg_amended [] [("BlackShare", -2)] [] 100
      ⟨1 / 2, 12 / 25, 1 / 50,
        [("BlackShare", 1 / 2), ("WhiteNonCollegeShare", 1 / 2)]⟩ hc).1.1
  · have hall := (c5_nonneg_amended [] [("BlackShare", -1 / 2)] [] 100
      ⟨1 / 2, 12 / 25, 1 / 50,
        [("BlackShare", 1 / 2), ("WhiteNonCollegeShare", 1 / 2)]⟩ hc).2
      (by intro p hp; simp only [List.mem_singleton] at hp; rw [hp]; norm_num)
    cases hv : (apply_generic_swing_row [] [("BlackShare", -1 / 2)] [] 100
        ⟨1 / 2, 12 / 25, 1 / 50,
          [("BlackShare", 1 / 2), ("WhiteNonCollegeShare", 1 / 2)]⟩).cols.lookup
        "BlackShare" with
    | none => simp
    | some v =>
      have hm := hall ("BlackShare", v)
        (lookup_mem_pair _ "BlackShare" v hv) isGroupCol_black
      simpa using hm

theorem margin_shift_sum_zero_of_all (ms : List (String × ℚ))
    (cols : List (String × ℚ)) (h : ∀ p ∈ ms, p.2 = 0) :
    margin_shift_sum ms cols = 0 := by
  unfold margin_shift_sum
  refine List.sum_eq_zero fun x hx => ?_
  obtain ⟨p, hp, rfl⟩ := List.mem_map.mp hx
  rw [lookupD_zero_of_all ms p.1 h, zero_mul]

theorem clamp_sym_eq_max_min (n x : ℚ) : clamp_sym n x = max (-n) (min n x) := by
  unfold clamp_sym
  by_cases h : x > n
  · simp only [if_pos h, min_eq_left h.le]
    rcases lt_or_le n (-n) with h2 | h2
    · rw [if_pos h2, max_eq_left h2.le]
    · rw [if_neg (not_lt.mpr h2), max_eq_right h2]
  · simp only [if_neg h, min_eq_right (not_lt.mp h)]
    rcases lt_or_le x (-n) with h2 | h2
    · rw [if_pos h2, max_eq_left h2.le]
    · rw [if_neg (not_lt.mpr h2), max_eq_right h2]

theorem clamp_sym_abs_bound (n d e : ℚ) (h1 : d - n ≤ e) (h2 : -d - n ≤ e)
    (he : 0 ≤ e) : |clamp_sym n d - d| ≤ e := by
  rw [clamp_sym_eq_max_min, abs_le]
  rcases le_total d n with hd | hd
  · rw [min_eq_right hd]
    rcases le_total (-n) d with hd2 | hd2
    · rw [max_eq_right hd2]
      constructor <;> linarith
    · rw [max_eq_left hd2]
      constructor <;> linarith
  · rw [min_eq_left hd]
    rcases le_total (-n) n with hd2 | hd2
    · rw [max_eq_right hd2]
      constructor <;> linarith
    · rw [max_eq_left hd2]
      constructor <;> linarith

/-- C7 counterexample: an all-zero but non-empty third-party shift map is
truthy in Python, so it is not a no-op: with thirdPartyShifts
containing BlackShare with value 0 on a row with baseline third share 0.02 and
BlackShare 0.4, FinodThird becomes 0.012, not the re-derived baseline 0.02. -/
theorem c7_zero_third_map_counterexample :
    (apply_generic_swing_row [] [] [("BlackShare", 0)] 100
        ⟨1 / 2, 12 / 25, 1 / 50,
          [("WhiteNonCollegeShare", 3 / 5), ("BlackShare", 2 / 5)]⟩).finalThird =
        3 / 250 ∧
      (rederive_shares (1 / 2) (12 / 25) (1 / 50)).2.2 = 1 / 50 ∧
      ((3 : ℚ) / 250) ≠ 1 / 50 := by
  refine ⟨?_, ?_, by norm_num⟩
  · norm_num [apply_generic_swing_row, final_three, swing_third0, swing_new_margin,
      swing_cols1, normalize_pass, turnout_pass, third_delta_sum, margin_shift_sum,
      group_sum, capShare, clamp01, clamp_sym, clip_margin, lookupD, List.lookup,
      isGroupCol_black, isGroupCol_wnc, List.filter_cons]
    all_goals try simp
    all_goals try norm_num
  · norm_num [rederive_shares]

/-- C7 (amended): for every row whose baseline shares lie in [0, 1] and sum
to 1 within a tolerance ε ≤ 1/2, calling apply_generic_swing with all-zero
or empty margin and turnout shift maps and an empty (or None) third-party
map is a no-op: the final shares equal the baseline shares re-derived
through the two-party-split formula, and FinalMargin equals BaselineMargin
within ε. A non-empty all-zero third-party map does not qualify (see the
counterexample). -/
theorem c7_noop_amended (ms ts : List (String × ℚ)) (row : SwingRow) (e : ℚ)
    (hms : ∀ p ∈ ms, p.2 = 0) (hts : ∀ p ∈ ts, p.2 = 0)
    (hbO : 0 ≤ row.baselineObama ∧ row.baselineObama ≤ 1)
    (hbM : 0 ≤ row.baselineMcCain ∧ row.baselineMcCain ≤ 1)
    (hbT : 0 ≤ row.baselineThird ∧ row.baselineThird ≤ 1)
    (hsum : |row.baselineObama + row.baselineMcCain + row.baselineThird - 1| ≤ e)
    (he : e ≤ 1 / 2) :
    (apply_generic_swing_row ms ts [] 100 row).finalObama =
        (rederive_shares row.baselineObama row.baselineMcCain row.baselineThird).1 ∧
      (apply_generic_swing_row ms ts [] 100 row).finalMcCain =
        (rederive_shares row.baselineObama row.baselineMcCain row.baselineThird).2.1 ∧
      (apply_generic_swing_row ms ts [] 100 row).finalThird =
        (rederive_shares row.baselineObama row.baselineMcCain row.baselineThird).2.2 ∧
      |(apply_generic_swing_row ms ts [] 100 row).finalMargin -
          (row.baselineObama - row.baselineMcCain)| ≤ e := by
  obtain ⟨hsl, hsr⟩ := abs_le.mp hsum
  have he0 : 0 ≤ e := le_trans (abs_nonneg _) hsum
  have hnm : swing_new_margin ms ts 100 row =
      row.baselineObama - row.baselineMcCain := by
    unfold swing_new_margin
    rw [margin_shift_sum_zero_of_all ms _ hms, add_zero]
    exact clip_margin_id 100 _ (by linarith [hbO.1, hbM.2]) (by linarith [hbO.2, hbM.1])
  have hcond : ¬((row.baselineObama + row.baselineMcCain +
        (row.baselineObama - row.baselineMcCain)) / 2 +
      (row.baselineObama + row.baselineMcCain -
        (row.baselineObama - row.baselineMcCain)) / 2 +
        row.baselineThird ≤ 0) := by
    intro hcon
    have : (1 : ℚ) - e ≤ row.baselineObama + row.baselineMcCain + row.baselineThird := by
      linarith
    linarith
  have hclamp : clamp01 row.baselineThird = row.baselineThird := by
    unfold clamp01
    rw [if_neg (not_lt.mpr hbT.1), if_neg (not_lt.mpr hbT.2)]
  have hF : final_three (row.baselineObama + row.baselineMcCain)
      (row.baselineObama - row.baselineMcCain) row.baselineThird =
      ((1 - row.baselineThird + clamp_sym (1 - row.baselineThird)
          (row.baselineObama - row.baselineMcCain)) / 2,
       (1 - row.baselineThird - clamp_sym (1 - row.baselineThird)
          (row.baselineObama - row.baselineMcCain)) / 2,
       row.baselineThird) := by
    unfold final_three
    rw [if_neg hcond, hclamp]
  have hr : rederive_shares row.baselineObama row.baselineMcCain row.baselineThird =
      ((1 - row.baselineThird + clamp_sym (1 - row.baselineThird)
          (row.baselineObama - row.baselineMcCain)) / 2,
       (1 - row.baselineThird - clamp_sym (1 - row.baselineThird)
          (row.baselineObama - row.baselineMcCain)) / 2,
       row.baselineThird) := by
    unfold rederive_shares
    rw [min_eq_right hbT.2, max_eq_right hbT.1, clamp_sym_eq_max_min]
  have hfo : (apply_generic_swing_row ms ts [] 100 row).finalObama =
      (final_three (row.baselineObama + row.baselineMcCain)
        (row.baselineObama - row.baselineMcCain) row.baselineThird).1 := by
    show (final_three _ (swing_new_margin ms ts 100 row) (swing_third0 ts [] row)).1 = _
    rw [hnm]
    rfl
  have hfm : (apply_generic_swing_row ms ts [] 100 row).finalMcCain =
      (final_three (row.baselineObama + row.baselineMcCain)
        (row.baselineObama - row.baselineMcCain) row.baselineThird).2.1 := by
    show (final_three _ (swing_new_margin ms ts 100 row) (swing_third0 ts [] row)).2.1 = _
    rw [hnm]
    rfl
  have hft : (apply_generic_swing_row ms ts [] 100 row).finalThird =
      (final_three (row.baselineObama + row.baselineMcCain)
        (row.baselineObama - row.baselineMcCain) row.baselineThird).2.2 := by
    show (final_three _ (swing_new_margin ms ts 100 row) (swing_third0 ts [] row)).2.2 = _
    rw [hnm]
    rfl
  refine ⟨by rw [hfo, hF, hr], by rw [hfm, hF, hr], by rw [hft, hF, hr], ?_⟩
  have hmargin : (apply_generic_swing_row ms ts [] 100 row).finalMargin =
      clamp_sym (1 - row.baselineThird)
        (row.baselineObama - row.baselineMcCain) := by
    show (final_three _ (swing_new_margin ms ts 100 row) (swing_third0 ts [] row)).1 -
      (final_three _ (swing_new_margin ms ts 100 row) (swing_third0 ts [] row)).2.1 = _
    rw [hnm]
    show (final_three _ _ row.baselineThird).1 -
      (final_three _ _ row.baselineThird).2.1 = _
    rw [hF]
    ring
  rw [hmargin]
  exact clamp_sym_abs_bound _ _ _ (by linarith [hbM.1]) (by linarith [hbO.1]) he0

/-- Witness for c7_noop_amended at a concrete row with empty shift maps. -/
theorem c7_noop_amended_witness :
    (apply_generic_swing_row [] [] [] 100
        ⟨1 / 2, 12 / 25, 1 / 50,
          [("WhiteNonCollegeShare", 3 / 5), ("BlackShare", 2 / 5)]⟩).finalObama =
      (rederive_shares (1 / 2) (12 / 25) (1 / 50)).1 :=
  (c7_noop_amended [] []
    ⟨1 / 2, 12 / 25, 1 / 50,
      [("WhiteNonCollegeShare", 3 / 5), ("BlackShare", 2 / 5)]⟩ (1 / 100)
    (by intro p hp; simp at hp) (by intro p hp; simp at hp)
    (by norm_num) (by norm_num) (by norm_num) (by norm_num) (by norm_num)).1

/-- The single row of the C2 end-to-end scenario: baselines 0.50 / 0.48 /
0.02, WhiteNonCollegeShare 0.6, BlackShare 0.4, the other slider groups 0. -/
def c2_scenario_row : SwingRow :=
  ⟨1 / 2, 12 / 25, 1 / 50,
    [("WhiteNonCollegeShare", 3 / 5), ("WhiteCollegeShare", 0),
     ("BlackShare", 2 / 5), ("HispanicShare", 0), ("AsianShare", 0),
     ("OtherShare", 0)]⟩

/-- C2 counterexample: with the literal margin-shift map (BlackShare, 10)
the engine performs no points-to-fraction conversion (calculations.py line
102 copies NewMargin into MarginFrac unchanged), so the weighted shift is
4.0 — not the 0.04 fraction the claim states — and Obama2p is 2.5, not
0.52. -/
theorem c2_points_map_counterexample :
    (apply_generic_swing_row [("BlackShare", 10)] [] [] 100 c2_scenario_row).marginShift = 4 ∧
      (apply_generic_swing_row [("BlackShare", 10)] [] [] 100 c2_scenario_row).obama2p = 5 / 2 ∧
      ((4 : ℚ) ≠ 1 / 25) ∧ ((5 : ℚ) / 2 ≠ 13 / 25) := by
  have hshift : (apply_generic_swing_row [("BlackShare", 10)] [] [] 100
      c2_scenario_row).marginShift = 4 := by
    show margin_shift_sum _ (swing_cols1 [] c2_scenario_row) = 4
    norm_num [c2_scenario_row, swing_cols1, normalize_pass, turnout_pass,
      margin_shift_sum, group_sum, capShare, lookupD, List.lookup,
      isGroupCol_wnc, isGroupCol_wc, isGroupCol_black, isGroupCol_hispanic,
      isGroupCol_asian, isGroupCol_other, List.filter_cons]
    all_goals try simp
    all_goals try norm_num
  refine ⟨hshift, ?_, by norm_num, by norm_num⟩
  show (c2_scenario_row.baselineObama + c2_scenario_row.baselineMcCain +
    swing_new_margin [("BlackShare", 10)] [] 100 c2_scenario_row) / 2 = 5 / 2
  have hnm : swing_new_margin [("BlackShare", 10)] [] 100 c2_scenario_row = 201 / 50 := by
    unfold swing_new_margin
    rw [show margin_shift_sum [("BlackShare", 10)] (swing_cols1 [] c2_scenario_row) = 4 from hshift]
    norm_num [c2_scenario_row, clip_margin]
  rw [hnm]
  norm_num [c2_scenario_row]

/-- C2 (amended): the scenario holds once the caller pre-converts the
10-point shift into the fraction 0.1 the engine expects (the engine does
no unit conversion): with margin-shift map (BlackShare, 0.1) the weighted
shift is 0.04, NewMargin is 0.06, Obama2p is 0.52, McCain2p is 0.46, the
final third-party share stays 0.02 and the winner is Obama. -/
theorem c2_scenario_amended :
    (apply_generic_swing_row [("BlackShare", 1 / 10)] [] [] 100 c2_scenario_row).marginShift = 1 / 25 ∧
      (apply_generic_swing_row [("BlackShare", 1 / 10)] [] [] 100 c2_scenario_row).newMargin = 3 / 50 ∧
      (apply_generic_swing_row [("BlackShare", 1 / 10)] [] [] 100 c2_scenario_row).obama2p = 13 / 25 ∧
      (apply_generic_swing_row [("BlackShare", 1 / 10)] [] [] 100 c2_scenario_row).mccain2p = 23 / 50 ∧
      (apply_generic_swing_row [("BlackShare", 1 / 10)] [] [] 100 c2_scenario_row).finalObama = 13 / 25 ∧
      (apply_generic_swing_row [("BlackShare", 1 / 10)] [] [] 100 c2_scenario_row).finalMcCain = 23 / 50 ∧
      (apply_generic_swing_row [("BlackShare", 1 / 10)] [] [] 100 c2_scenario_row).finalThird = 1 / 50 ∧
      (apply_generic_swing_row [("BlackShare", 1 / 10)] [] [] 100 c2_scenario_row).winner = "Obama" := by
  have hshift : (apply_generic_swing_row [("BlackShare", 1 / 10)] [] [] 100
      c2_scenario_row).marginShift = 1 / 25 := by
    show margin_shift_sum _ (swing_cols1 [] c2_scenario_row) = 1 / 25
    norm_num [c2_scenario_row, swing_cols1, normalize_pass, turnout_pass,
      margin_shift_sum, group_sum, capShare, lookupD, List.lookup,
      isGroupCol_wnc, isGroupCol_wc, isGroupCol_black, isGroupCol_hispanic,
      isGroupCol_asian, isGroupCol_other, List.filter_cons]
    all_goals try simp
    all_goals try norm_num
  have hnm : swing_new_margin [("BlackShare", 1 / 10)] [] 100 c2_scenario_row = 3 / 50 := by
    unfold swing_new_margin
    rw [show margin_shift_sum [("BlackShare", 1 / 10)] (swing_cols1 [] c2_scenario_row) =
      1 / 25 from hshift]
    norm_num [c2_scenario_row, clip_margin]
  have hfin : final_three (c2_scenario_row.baselineObama + c2_scenario_row.baselineMcCain)
      (swing_new_margin [("BlackShare", 1 / 10)] [] 100 c2_scenario_row)
      (swing_third0 [] [] c2_scenario_row) = (13 / 25, 23 / 50, 1 / 50) := by
    rw [hnm]
    show final_three (1 / 2 + 12 / 25) (3 / 50) (1 / 50) = _
    norm_num [final_three, clamp01, clamp_sym]
  refine ⟨hshift, hnm, ?_, ?_, ?_, ?_, ?_, ?_⟩
  · show (c2_scenario_row.baselineObama + c2_scenario_row.baselineMcCain +
      swing_new_margin [("BlackShare", 1 / 10)] [] 100 c2_scenario_row) / 2 = 13 / 25
    rw [hnm]
    norm_num [c2_scenario_row]
  · show (c2_scenario_row.baselineObama + c2_scenario_row.baselineMcCain -
      swing_new_margin [("BlackShare", 1 / 10)] [] 100 c2_scenario_row) / 2 = 23 / 50
    rw [hnm]
    norm_num [c2_scenario_row]
  · show (final_three _ _ _).1 = 13 / 25
    rw [hfin]
  · show (final_three _ _ _).2.1 = 23 / 50
    rw [hfin]
  · show (final_three _ _ _).2.2 = 1 / 50
    rw [hfin]
  · show (if (final_three _ _ _).1 - (final_three _ _ _).2.1 > 0
      then "Obama" else "McCain") = "Obama"
    rw [hfin]
    norm_num

theorem divfun_fst (s : ℚ) (p : String × ℚ) :
    (if isGroupCol p.1 then (p.1, p.2 / s) else p).1 = p.1 := by
  by_cases h : isGroupCol p.1 <;> simp [h]

theorem turnout_pass_id_of (ts aux : List (String × ℚ))
    (h : ∀ p ∈ aux, ts.lookup p.1 = none ∧ p.2 ≤ 1) :
    turnout_pass ts aux = aux := by
  unfold turnout_pass
  refine map_id_of_mem _ aux fun p hp => ?_
  by_cases hg : isGroupCol p.1
  · rw [if_pos hg, lookupD_eq_zero ts p.1 (h p hp).1]
    rw [show p.2 * (1 + 0) = p.2 by ring]
    unfold capShare
    rw [if_neg (not_lt.mpr (h p hp).2)]
  · rw [if_neg hg]

theorem turnout_pass_append (ts a b : List (String × ℚ)) :
    turnout_pass ts (a ++ b) = turnout_pass ts a ++ turnout_pass ts b :=
  List.map_append _ a b

theorem mss_normalize_append_eq (ms : List (String × ℚ))
    (t aux1 aux2 : List (String × ℚ))
    (ha1 : ∀ p ∈ aux1, ms.lookup p.1 = none)
    (ha2 : ∀ p ∈ aux2, ms.lookup p.1 = none)
    (h3 : group_sum aux1 = group_sum aux2) :
    margin_shift_sum ms (normalize_pass (t ++ aux1)) =
      margin_shift_sum ms (normalize_pass (t ++ aux2)) := by
  have hz1 : ∀ s, ∀ p ∈ aux1.map (fun p =>
      if isGroupCol p.1 then (p.1, p.2 / s) else p), ms.lookup p.1 = none := by
    intro s p hp
    obtain ⟨q, hq, rfl⟩ := List.mem_map.mp hp
    rw [divfun_fst]
    exact ha1 q hq
  have hz2 : ∀ s, ∀ p ∈ aux2.map (fun p =>
      if isGroupCol p.1 then (p.1, p.2 / s) else p), ms.lookup p.1 = none := by
    intro s p hp
    obtain ⟨q, hq, rfl⟩ := List.mem_map.mp hp
    rw [divfun_fst]
    exact ha2 q hq
  unfold normalize_pass
  rw [group_sum_append, group_sum_append, h3]
  by_cases hS : group_sum t + group_sum aux2 > 0
  · rw [if_pos hS, if_pos hS, List.map_append, List.map_append,
      margin_shift_sum_append, margin_shift_sum_append,
      margin_shift_sum_zero ms _ (hz1 _), margin_shift_sum_zero ms _ (hz2 _)]
  · rw [if_neg hS, if_neg hS, margin_shift_sum_append, margin_shift_sum_append,
      margin_shift_sum_zero ms aux1 ha1, margin_shift_sum_zero ms aux2 ha2]

theorem tds_normalize_append_eq (tps : List (String × ℚ)) (bT : ℚ)
    (t aux1 aux2 : List (String × ℚ))
    (ha1 : ∀ p ∈ aux1, tps.lookup p.1 = none)
    (ha2 : ∀ p ∈ aux2, tps.lookup p.1 = none)
    (h3 : group_sum aux1 = group_sum aux2) :
    third_delta_sum tps bT (normalize_pass (t ++ aux1)) =
      third_delta_sum tps bT (normalize_pass (t ++ aux2)) := by
  have hz1 : ∀ s, ∀ p ∈ aux1.map (fun p =>
      if isGroupCol p.1 then (p.1, p.2 / s) else p), tps.lookup p.1 = none := by
    intro s p hp
    obtain ⟨q, hq, rfl⟩ := List.mem_map.mp hp
    rw [divfun_fst]
    exact ha1 q hq
  have hz2 : ∀ s, ∀ p ∈ aux2.map (fun p =>
      if isGroupCol p.1 then (p.1, p.2 / s) else p), tps.lookup p.1 = none := by
    intro s p hp
    obtain ⟨q, hq, rfl⟩ := List.mem_map.mp hp
    rw [divfun_fst]
    exact ha2 q hq
  unfold normalize_pass
  rw [group_sum_append, group_sum_append, h3]
  by_cases hS : group_sum t + group_sum aux2 > 0
  · rw [if_pos hS, if_pos hS, List.map_append, List.map_append,
      third_delta_sum_append, third_delta_sum_append,
      third_delta_sum_zero tps bT _ (hz1 _), third_delta_sum_zero tps bT _ (hz2 _)]
  · rw [if_neg hS, if_neg hS, third_delta_sum_append, third_delta_sum_append,
      third_delta_sum_zero tps bT aux1 ha1, third_delta_sum_zero tps bT aux2 ha2]

/-- C6 counterexample: two rows identical except for the value of the
auxiliary MaleShare column (0.5 versus 0.25) get different FinalObama
values (31/60 versus 13/25) from identical shift maps, because every
column ending in Share — MaleShare included — enters the turnout
renormalization denominator. -/
theorem c6_aux_column_counterexample :
    (apply_generic_swing_row [("BlackShare", 1 / 10)] [] [] 100
        ⟨1 / 2, 12 / 25, 1 / 50,
          [("BlackShare", 1 / 2), ("WhiteNonCollegeShare", 1 / 2),
           ("MaleShare", 1 / 2)]⟩).finalObama = 31 / 60 ∧
      (apply_generic_swing_row [("BlackShare", 1 / 10)] [] [] 100
        ⟨1 / 2, 12 / 25, 1 / 50,
          [("BlackShare", 1 / 2), ("WhiteNonCollegeShare", 1 / 2),
           ("MaleShare", 1 / 4)]⟩).finalObama = 13 / 25 ∧
      ((31 : ℚ) / 60 ≠ 13 / 25) := by
  refine ⟨?_, ?_, by norm_num⟩ <;>
  · norm_num [apply_generic_swing_row, final_three, swing_third0, swing_new_margin,
      swing_cols1, normalize_pass, turnout_pass, third_delta_sum, margin_shift_sum,
      group_sum, capShare, clamp01, clamp_sym, clip_margin, lookupD, List.lookup,
      isGroupCol_black, isGroupCol_wnc, isGroupCol_male, List.filter_cons]
    all_goals try simp
    all_goals try norm_num

/-- C6 (amended): the final outputs are invariant under changes to
auxiliary Share-suffixed columns only when the auxiliary columns keep the
same per-row group-column total: for two rows that agree on the baselines
and on a common core column list and whose auxiliary tails are absent from
all three shift dicts, have values in [0, 1] and equal group-column sums,
the engine returns identical final shares, final margin and winner. In
general the engine consumes every Share-suffixed column (see the
counterexample), contrary to the claim. -/
theorem c6_aux_invariance_amended (ms ts tps : List (String × ℚ))
    (mx bO bM bT : ℚ) (core aux1 aux2 : List (String × ℚ))
    (h1 : ∀ p ∈ aux1, ms.lookup p.1 = none ∧ ts.lookup p.1 = none ∧
      tps.lookup p.1 = none ∧ 0 ≤ p.2 ∧ p.2 ≤ 1)
    (h2 : ∀ p ∈ aux2, ms.lookup p.1 = none ∧ ts.lookup p.1 = none ∧
      tps.lookup p.1 = none ∧ 0 ≤ p.2 ∧ p.2 ≤ 1)
    (h3 : group_sum aux1 = group_sum aux2) :
    (apply_generic_swing_row ms ts tps mx ⟨bO, bM, bT, core ++ aux1⟩).finalObama =
        (apply_generic_swing_row ms ts tps mx ⟨bO, bM, bT, core ++ aux2⟩).finalObama ∧
      (apply_generic_swing_row ms ts tps mx ⟨bO, bM, bT, core ++ aux1⟩).finalMcCain =
        (apply_generic_swing_row ms ts tps mx ⟨bO, bM, bT, core ++ aux2⟩).finalMcCain ∧
      (apply_generic_swing_row ms ts tps mx ⟨bO, bM, bT, core ++ aux1⟩).finalThird =
        (apply_generic_swing_row ms ts tps mx ⟨bO, bM, bT, core ++ aux2⟩).finalThird ∧
      (apply_generic_swing_row ms ts tps mx ⟨bO, bM, bT, core ++ aux1⟩).finalMargin =
        (apply_generic_swing_row ms ts tps mx ⟨bO, bM, bT, core ++ aux2⟩).finalMargin ∧
      (apply_generic_swing_row ms ts tps mx ⟨bO, bM, bT, core ++ aux1⟩).winner =
        (apply_generic_swing_row ms ts tps mx ⟨bO, bM, bT, core ++ aux2⟩).winner := by
  have hcols1 : swing_cols1 ts ⟨bO, bM, bT, core ++ aux1⟩ =
      normalize_pass (turnout_pass ts core ++ aux1) := by
    unfold swing_cols1
    show normalize_pass (turnout_pass ts (core ++ aux1)) = _
    rw [turnout_pass_append,
      turnout_pass_id_of ts aux1 fun p hp => ⟨(h1 p hp).2.1, (h1 p hp).2.2.2.2⟩]
  have hcols2 : swing_cols1 ts ⟨bO, bM, bT, core ++ aux2⟩ =
      normalize_pass (turnout_pass ts core ++ aux2) := by
    unfold swing_cols1
    show normalize_pass (turnout_pass ts (core ++ aux2)) = _
    rw [turnout_pass_append,
      turnout_pass_id_of ts aux2 fun p hp => ⟨(h2 p hp).2.1, (h2 p hp).2.2.2.2⟩]
  have hmss : margin_shift_sum ms (swing_cols1 ts ⟨bO, bM, bT, core ++ aux1⟩) =
      margin_shift_sum ms (swing_cols1 ts ⟨bO, bM, bT, core ++ aux2⟩) := by
    rw [hcols1, hcols2]
    exact mss_normalize_append_eq ms (turnout_pass ts core) aux1 aux2
      (fun p hp => (h1 p hp).1) (fun p hp => (h2 p hp).1) h3
  have hnm : swing_new_margin ms ts mx ⟨bO, bM, bT, core ++ aux1⟩ =
      swing_new_margin ms ts mx ⟨bO, bM, bT, core ++ aux2⟩ := by
    unfold swing_new_margin
    rw [hmss]
  have hft0 : swing_third0 ts tps ⟨bO, bM, bT, core ++ aux1⟩ =
      swing_third0 ts tps ⟨bO, bM, bT, core ++ aux2⟩ := by
    unfold swing_third0
    by_cases h : tps.isEmpty
    · rw [if_pos h, if_pos h]
    · rw [if_neg h, if_neg h, hcols1, hcols2,
        tds_normalize_append_eq tps bT (turnout_pass ts core) aux1 aux2
          (fun p hp => (h1 p hp).2.2.1) (fun p hp => (h2 p hp).2.2.1) h3]
  have hfin : final_three (bO + bM) (swing_new_margin ms ts mx ⟨bO, bM, bT, core ++ aux1⟩)
        (swing_third0 ts tps ⟨bO, bM, bT, core ++ aux1⟩) =
      final_three (bO + bM) (swing_new_margin ms ts mx ⟨bO, bM, bT, core ++ aux2⟩)
        (swing_third0 ts tps ⟨bO, bM, bT, core ++ aux2⟩) := by
    rw [hnm, hft0]
  exact ⟨congrArg Prod.fst hfin,
    congrArg (fun q => q.2.1) hfin,
    congrArg (fun q => q.2.2) hfin,
    by show (final_three _ _ _).1 - (final_three _ _ _).2.1 = _; rw [hfin]; rfl,
    by show (if (final_three _ _ _).1 - (final_three _ _ _).2.1 > 0
        then "Obama" else "McCain") = _
       rw [hfin]
       rfl⟩

/-- Witness for c6_aux_invariance_amended: two rows whose MaleShare and
FemaleShare tails both sum to one produce the same FinalObama. -/
theorem c6_aux_invariance_amended_witness :
    (apply_generic_swing_row [("BlackShare", 1 / 10)] [] [] 100
        ⟨1 / 2, 12 / 25, 1 / 50,
          [("BlackShare", 1 / 2), ("WhiteNonCollegeShare", 1 / 2)] ++
            [("MaleShare", 1 / 2), ("FemaleShare", 1 / 2)]⟩).finalObama =
      (apply_generic_swing_row [("BlackShare", 1 / 10)] [] [] 100
        ⟨1 / 2, 12 / 25, 1 / 50,
          [("BlackShare", 1 / 2), ("WhiteNonCollegeShare", 1 / 2)] ++
            [("MaleShare", 3 / 4), ("FemaleShare", 1 / 4)]⟩).finalObama := by
  refine (c6_aux_invariance_amended [("BlackShare", 1 / 10)] [] [] 100
    (1 / 2) (12 / 25) (1 / 50)
    [("BlackShare", 1 / 2), ("WhiteNonCollegeShare", 1 / 2)]
    [("MaleShare", 1 / 2), ("FemaleShare", 1 / 2)]
    [("MaleShare", 3 / 4), ("FemaleShare", 1 / 4)] ?_ ?_ ?_).1
  · intro p hp
    simp only [List.mem_cons, List.mem_singleton] at hp
    rcases hp with h | h | h <;>
      first
      | (rw [h]; refine ⟨?_, ?_, ?_, ?_, ?_⟩ <;> (try simp [List.lookup]) <;> norm_num)
      | simp at h
  · intro p hp
    simp only [List.mem_cons, List.mem_singleton] at hp
    rcases hp with h | h | h <;>
      first
      | (rw [h]; refine ⟨?_, ?_, ?_, ?_, ?_⟩ <;> (try simp [List.lookup]) <;> norm_num)
      | simp at h
  · norm_num [group_sum, isGroupCol_male, isGroupCol_female, List.filter_cons]
    all_goals try simp
    all_goals try norm_num

/-- C9: the national popular-vote projection of update_results weights
each group margin shift by the normalized national share of that group
(share divided by the sum over the slider groups), adds the weighted
shift to the baseline Obama share and subtracts it from the baseline
McCain share, clamps each of the three shares to [0, 1] independently,
and renormalizes by the clamped total, so the reported split sums to
exactly 1.0 whenever that total is positive. -/
theorem c9_national_pop_vote (natShares : String → ℚ) (ms : List (String × ℚ))
    (baseO baseM baseT : ℚ) :
    update_results_pop_vote natShares ms baseO baseM baseT =
        pop_vote_claim_formula natShares ms baseO baseM baseT ∧
      (0 < pop_vote_clamped_total natShares ms baseO baseM baseT →
        (update_results_pop_vote natShares ms baseO baseM baseT).1 +
            (update_results_pop_vote natShares ms baseO baseM baseT).2.1 +
            (update_results_pop_vote natShares ms baseO baseM baseT).2.2 = 1) := by
  have ho : pop_vote_obama_raw natShares ms baseO = baseO +
      (national_groups.map (fun g => pop_vote_adj ms g *
        (natShares g / pop_vote_total_share natShares))).sum :=
    foldl_add_eq _ _ _
  have hm : pop_vote_mccain_raw natShares ms baseM = baseM -
      (national_groups.map (fun g => pop_vote_adj ms g *
        (natShares g / pop_vote_total_share natShares))).sum :=
    foldl_sub_eq _ _ _
  constructor
  · unfold update_results_pop_vote pop_vote_claim_formula
    rw [ho, hm]
  · intro h
    show max 0 (min 1 (pop_vote_obama_raw natShares ms baseO)) /
          pop_vote_clamped_total natShares ms baseO baseM baseT +
        max 0 (min 1 (pop_vote_mccain_raw natShares ms baseM)) /
          pop_vote_clamped_total natShares ms baseO baseM baseT +
        max 0 (min 1 baseT) /
          pop_vote_clamped_total natShares ms baseO baseM baseT = 1
    rw [div_add_div_same, div_add_div_same]
    exact div_self (ne_of_gt h)

/-- Witness for c9_national_pop_vote with uniform national shares, no
shifts and the 2008 national baseline. -/
theorem c9_national_pop_vote_witness :
    0 < pop_vote_clamped_total (fun _ => 1 / 6) [] (1 / 2) (12 / 25) (1 / 50) ∧
      (update_results_pop_vote (fun _ => 1 / 6) [] (1 / 2) (12 / 25) (1 / 50)).1 +
          (update_results_pop_vote (fun _ => 1 / 6) [] (1 / 2) (12 / 25) (1 / 50)).2.1 +
          (update_results_pop_vote (fun _ => 1 / 6) [] (1 / 2) (12 / 25) (1 / 50)).2.2 = 1 := by
  have h : 0 < pop_vote_clamped_total (fun _ => 1 / 6) [] (1 / 2) (12 / 25) (1 / 50) := by
    norm_num [pop_vote_clamped_total, pop_vote_obama_raw, pop_vote_mccain_raw,
      pop_vote_adj, pop_vote_total_share, national_groups, lookupD, List.lookup,
      min_def, max_def]
  exact ⟨h, (c9_national_pop_vote (fun _ => 1 / 6) [] (1 / 2) (12 / 25) (1 / 50)).2 h⟩

/-- C10 counterexample: with Black_Percentage absent from the state
demographics columns (the State merge key being present in both frames),
the canonical BlackShare field is missing after renaming, yet
construct_df_states succeeds — it silently filters keep_cols to the
columns that exist and raises nothing for a missing data column — so the
state builder does not fail with a configuration error. -/
theorem c10_state_builder_counterexample :
    (construct_df_states
        ["STATE", "Female_Percentage", "Male_Percentage",
         "White_College_Percentage", "White_Non_College_Percentage",
         "Hispanic_Percentage", "Asian_Percentage", "Other_Percentage"]
        ["STATE", "OBAMA", "MCCAIN", "THIRDPARTY", "EV", "MARGIN",
         "TURNOUT"]).isOk = true ∧
      ((construct_df_states
        ["STATE", "Female_Percentage", "Male_Percentage",
         "White_College_Percentage", "White_Non_College_Percentage",
         "Hispanic_Percentage", "Asian_Percentage", "Other_Percentage"]
        ["STATE", "OBAMA", "MCCAIN", "THIRDPARTY", "EV", "MARGIN",
         "TURNOUT"]).toOption.getD []).contains "BlackShare" = false := by
  constructor <;> decide

/-- C10 (amended): only the national builder validates its data columns:
it fails with a configuration error naming the missing required canonical
columns whenever one is absent after renaming, and otherwise raises when
the exit-poll reference lacks a Total record (or when no exit poll is
supplied); these errors are returned synchronously. The state builder
performs no column validation of its own: it succeeds, keeping whichever
keep_cols exist, whenever the State merge key is present in both frames
after renaming; its only failure is the KeyError that pandas merge raises
when State is missing from either frame. -/
theorem c10_builder_errors_amended (cols : List String)
    (ep : List (String × (ℚ × ℚ × ℚ))) (demoCols resultCols : List String) :
    (missing_national_cols cols ≠ [] →
        construct_national_df cols (some ep) =
          .error ("Missing columns in national demographics: " ++
            String.intercalate ", " (missing_national_cols cols))) ∧
      (missing_national_cols cols = [] → ep.lookup "Total" = none →
        construct_national_df cols (some ep) =
          .error "Exit poll Total row is missing.") ∧
      (missing_national_cols cols = [] →
        construct_national_df cols none =
          .error "Exit poll DataFrame is required.") ∧
      ((rename_cols state_demo_rename_list demoCols).contains "State" = true →
        (rename_cols state_results_rename_list resultCols).contains "State" = true →
        (construct_df_states demoCols resultCols).isOk = true) ∧
      ((rename_cols state_demo_rename_list demoCols).contains "State" = false ∨
          (rename_cols state_results_rename_list resultCols).contains "State" = false →
        construct_df_states demoCols resultCols = .error "KeyError: State") := by
  refine ⟨?_, ?_, ?_, ?_, ?_⟩
  · intro h
    unfold construct_national_df
    rw [if_pos h]
  · intro h hl
    unfold construct_national_df
    rw [if_neg (fun hc => hc h)]
    dsimp only
    rw [hl]
  · intro h
    unfold construct_national_df
    rw [if_neg (fun hc => hc h)]
  · intro h1 h2
    unfold construct_df_states
    rw [h1, h2]
    rfl
  · intro h
    unfold construct_df_states
    rcases h with h | h
    · rw [h, Bool.false_and, if_neg (by simp)]
    · rw [h, Bool.and_false, if_neg (by simp)]

/-- Witness for c10_builder_errors_amended: a national table with only the
sex columns is rejected with the missing-column error, a complete national
table with an exit poll lacking a Total record is rejected with the
Total-row error, the state builder succeeds when both frames carry the
State key, and it surfaces the merge KeyError when neither does. -/
theorem c10_builder_errors_amended_witness :
    construct_national_df ["Male", "Female"] (some []) =
        .error ("Missing columns in national demographics: " ++
          String.intercalate ", " (missing_national_cols ["Male", "Female"])) ∧
      construct_national_df
          ["Asian/Pacific Islander", "Black/African American",
           "Hispanic/Latino", "Other", "College_White", "Noncollege_White",
           "Male", "Female"] (some [("Texas", (0, 0, 0))]) =
        .error "Exit poll Total row is missing." ∧
      (construct_df_states ["STATE", "Black_Percentage"]
        ["STATE", "OBAMA", "MCCAIN", "THIRDPARTY"]).isOk = true ∧
      construct_df_states [] [] = .error "KeyError: State" := by
  refine ⟨?_, ?_, ?_, ?_⟩
  · exact (c10_builder_errors_amended ["Male", "Female"] [] [] []).1 (by decide)
  · exact (c10_builder_errors_amended
      ["Asian/Pacific Islander", "Black/African American", "Hispanic/Latino",
       "Other", "College_White", "Noncollege_White", "Male", "Female"]
      [("Texas", (0, 0, 0))] [] []).2.1 (by decide) (by decide)
  · exact (c10_builder_errors_amended [] [] ["STATE", "Black_Percentage"]
      ["STATE", "OBAMA", "MCCAIN", "THIRDPARTY"]).2.2.2.1 (by decide) (by decide)
  · exact (c10_builder_errors_amended [] [] [] []).2.2.2.2 (Or.inl (by decide))
